import Mathlib

/-!
# Fuse: a four-channel, sixteen-phase gate sequencer

Shallow embedding of `Fuse::step` from `src/Fuse.cpp` and of the state it acts on.

Conventions of the embedding.
* `float` values (signal voltages, durations) are exact rationals `ℚ`; the
  constants `10.0`, `1.0`, `0.0` and `1e-3` are `10`, `1`, `0` and `1/1000`.
* `unsigned` is `Nat`, with the wrap of `curstep++` written out as `% 2 ^ 32`.
* The C arrays of length four are values of `Arr4`, indexed by `Fin 4`.
* One call of `Fuse::step` is the function `Fuse.step s inp`: `inp` holds what the
  host wrote before the call (parameters, input ports, sample rate) and `s` holds the
  fields of the module, including the output and light values it writes.
* The two helper classes of the host header `dsp/digital.hpp` are not among the
  sources; they are modelled from section 4 of the specification.
* A run is a stream of inputs `inp : Nat → Inputs`; `Fuse.run s inp k` is the state before
  tick `k`, so `Fuse.run s inp (k + 1)` is the state after it.

The file has three parts: the definitions, the lemmas that describe one tick field by
field and a run tick by tick, and the statements `C1` to `C10` about the module.
-/

namespace Southpole

/-! ## Fixed-length arrays -/

/-- A C array of length four. -/
structure Arr4 (α : Type) where
  x0 : α
  x1 : α
  x2 : α
  x3 : α
deriving DecidableEq

/-- Array read `a[i]`. -/
def Arr4.get {α : Type} (a : Arr4 α) : Fin 4 → α
  | 0 => a.x0
  | 1 => a.x1
  | 2 => a.x2
  | 3 => a.x3

/-- Array write `a[i] = v`. -/
def Arr4.set {α : Type} (a : Arr4 α) (i : Fin 4) (v : α) : Arr4 α :=
  match i with
  | 0 => { a with x0 := v }
  | 1 => { a with x1 := v }
  | 2 => { a with x2 := v }
  | 3 => { a with x3 := v }

/-- The array holding `v` in every cell. -/
def Arr4.fill {α : Type} (v : α) : Arr4 α := ⟨v, v, v, v⟩

/-- Apply `f` to every cell. -/
def Arr4.map {α β : Type} (f : α → β) (a : Arr4 α) : Arr4 β :=
  ⟨f a.x0, f a.x1, f a.x2, f a.x3⟩

/-! ## Host helpers (modelled from the specification) -/

/-- Modelled from the spec: the edge detector `SchmittTrigger` of the host header
`dsp/digital.hpp`, which is not among the sources. Section 4.1 describes a latch that is
either low or high (`state`), a low threshold and a high threshold. The thresholds are
not given numerically, so they are fields here. -/
structure SchmittTrigger where
  state : Bool
  low : ℚ
  high : ℚ
deriving DecidableEq

/-- Modelled from the spec: `SchmittTrigger::process`. Section 4.1: a transition from low
to high (input above the high threshold while the latch is low) counts as exactly one
edge; the latch returns to low when the input is below the low threshold; values in
between change nothing. Returns the new detector and whether an edge was detected. -/
def SchmittTrigger.process (t : SchmittTrigger) (v : ℚ) : SchmittTrigger × Bool :=
  if t.state then
    if v < t.low then ({ t with state := false }, false) else (t, false)
  else
    if t.high < v then ({ t with state := true }, true) else (t, false)

/-- Modelled from the spec: `SchmittTrigger::reset`. Section 4.1: forces the latch back to
the low state without emitting an edge. -/
def SchmittTrigger.reset (t : SchmittTrigger) : SchmittTrigger :=
  { t with state := false }

/-- Modelled from the spec: the one-shot timer `PulseGenerator` of the host header
`dsp/digital.hpp`, which is not among the sources. Section 3 gives it the remaining
duration of the pulse (`pulseRemaining`), never negative. -/
structure PulseGenerator where
  remaining : ℚ
deriving DecidableEq

/-- Modelled from the spec: `PulseGenerator::trigger`. Section 4.2: arms the one-shot
timer; triggering again restarts the duration and does not add to it. -/
def PulseGenerator.trigger (_p : PulseGenerator) (duration : ℚ) : PulseGenerator :=
  { remaining := duration }

/-- Modelled from the spec: `PulseGenerator::process`. Section 4.2: advances the timer by
`deltaTime` and returns whether the pulse is still active; section 3: the remaining
duration never becomes negative. Returns the new generator and the activity flag. -/
def PulseGenerator.process (p : PulseGenerator) (deltaTime : ℚ) : PulseGenerator × Bool :=
  let r := max 0 (p.remaining - deltaTime)
  ({ remaining := r }, decide (0 < r))

/-- Modelled from the spec: an input port of the host (section 6): either connected
(`active`) with a signal `value`, or unconnected. -/
structure Port where
  active : Bool
  value : ℚ
deriving DecidableEq

/-- Modelled from the spec: `Input::normalize`. Section 4.3: an unconnected input reads as
the given default value. -/
def Port.normalize (p : Port) (dflt : ℚ) : ℚ :=
  if p.active then p.value else dflt

/-! ## The module -/

/-- The enum `Fuse::GateMode`. -/
inductive GateMode where
  | TRIGGER
  | GATE
deriving DecidableEq

/-- What the host supplies for one call of `Fuse::step`: the four `SWITCHn_PARAM`
values, the four `ARMn_INPUT` ports, `CLK_INPUT`, `RESET_INPUT` and the value of
`engineGetSampleRate()`. -/
structure Inputs where
  switch : Arr4 ℚ
  arm : Arr4 Port
  clk : Port
  reset : Port
  sampleRate : ℚ
deriving DecidableEq

/-- The fields of `struct Fuse`, with the `outputs` and `lights` values it writes. -/
structure Fuse where
  gateMode : GateMode
  clockTrigger : SchmittTrigger
  resetTrigger : SchmittTrigger
  armTrigger : Arr4 SchmittTrigger
  pulse : Arr4 PulseGenerator
  armed : Arr4 Bool
  gateOn : Bool
  curstep : Nat
  outputs : Arr4 ℚ
  lights : Arr4 ℚ
deriving DecidableEq

/-- The constant `Fuse::maxsteps`. -/
def maxsteps : Nat := 16

/-- The state left by the constructor `Fuse::Fuse`. The member initialisers give
`gateMode = TRIGGER` and `curstep = 0`, the detectors start low and the pulse timers idle;
`outputs` and `lights` start at zero. The constructor does not assign `armed[4]` and
`gateOn` (lines 62-63 have no initialiser), so their values are whatever the memory
holds: they are the parameters `armed0` and `gateOn0`. The thresholds of the detectors are
the parameters `lo` and `hi`. -/
def Fuse.new (lo hi : ℚ) (armed0 : Arr4 Bool) (gateOn0 : Bool) : Fuse :=
  { gateMode := GateMode.TRIGGER
    clockTrigger := ⟨false, lo, hi⟩
    resetTrigger := ⟨false, lo, hi⟩
    armTrigger := Arr4.fill ⟨false, lo, hi⟩
    pulse := Arr4.fill ⟨0⟩
    armed := armed0
    gateOn := gateOn0
    curstep := 0
    outputs := Arr4.fill 0
    lights := Arr4.fill 0 }

/-- Lines 73-82: the reset block. -/
def Fuse.resetBlock (s : Fuse) (inp : Inputs) : Fuse :=
  if inp.reset.active then
    let r := s.resetTrigger.process inp.reset.value
    let s1 := { s with resetTrigger := r.1 }
    if r.2 then
      { s1 with
        curstep := maxsteps
        armTrigger := s1.armTrigger.map SchmittTrigger.reset
        armed := Arr4.fill false
        gateOn := false }
    else s1
  else s

/-- Lines 84-88: the clock block; the flag is the local `nextStep`. -/
def Fuse.clockBlock (s : Fuse) (inp : Inputs) : Fuse × Bool :=
  if inp.clk.active then
    let r := s.clockTrigger.process inp.clk.value
    ({ s with clockTrigger := r.1 }, r.2)
  else (s, false)

/-- Lines 90-94: advance the phase counter. -/
def Fuse.advance (s : Fuse) (nextStep : Bool) : Fuse :=
  if nextStep then
    let c1 := (s.curstep + 1) % 2 ^ 32
    let c2 := if maxsteps ≤ c1 then 0 else c1
    { s with curstep := c2, gateOn := if c2 % 4 = 0 then false else s.gateOn }
  else s

/-- Lines 98-101: arming of channel `i` and its light. `setBrightness` is a host routine;
following section 4.3 of the specification the light value mirrors `armed[i]` (1.0 or 0.0). -/
def Fuse.armChannel (s : Fuse) (inp : Inputs) (i : Fin 4) : Fuse :=
  let s1 := if 0 < inp.switch.get i then { s with armed := s.armed.set i true } else s
  let r := (s1.armTrigger.get i).process ((inp.arm.get i).normalize 0)
  let s2 := { s1 with armTrigger := s1.armTrigger.set i r.1 }
  let s3 := if r.2 then { s2 with armed := s2.armed.set i true } else s2
  { s3 with lights := s3.lights.set i (if s3.armed.get i then 1 else 0) }

/-- Line 103: the condition under which channel `i` fires. -/
def Fuse.fireCond (s : Fuse) (nextStep : Bool) (i : Fin 4) : Bool :=
  nextStep && decide (i.val * 4 = s.curstep) && s.armed.get i

/-- Lines 104-106: channel `i` fires. -/
def Fuse.fire (s : Fuse) (i : Fin 4) : Fuse :=
  { s with
    pulse := s.pulse.set i ((s.pulse.get i).trigger (1 / 1000))
    armed := s.armed.set i false
    gateOn := if s.gateMode = GateMode.GATE then true else s.gateOn }

/-- Lines 109-110: advance the pulse timer of channel `i` and write its output. -/
def Fuse.emit (s : Fuse) (inp : Inputs) (i : Fin 4) : Fuse :=
  let r := (s.pulse.get i).process (1 / inp.sampleRate)
  { s with
    pulse := s.pulse.set i r.1
    outputs := s.outputs.set i (if s.gateOn || r.2 then 10 else 0) }

/-- Lines 97-110: the body of the channel loop for index `i`. -/
def Fuse.channel (inp : Inputs) (nextStep : Bool) (s : Fuse) (i : Fin 4) : Fuse :=
  let s1 := s.armChannel inp i
  let s2 := if s1.fireCond nextStep i then s1.fire i else s1
  s2.emit inp i

/-- The state at line 96, when the channel loop is entered. -/
def Fuse.enterLoop (s : Fuse) (inp : Inputs) : Fuse :=
  let c := (s.resetBlock inp).clockBlock inp
  c.1.advance c.2

/-- Whether a reset rising edge is detected in the tick (line 74 is reached and true). -/
def Fuse.resetEdge (s : Fuse) (inp : Inputs) : Bool :=
  inp.reset.active && (s.resetTrigger.process inp.reset.value).2

/-- Whether a clock rising edge is detected in the tick: the value of `nextStep`. -/
def Fuse.clockEdge (s : Fuse) (inp : Inputs) : Bool :=
  ((s.resetBlock inp).clockBlock inp).2

/-- The channel indices in the order in which the loop of line 96 visits them. -/
def channels : List (Fin 4) := [0, 1, 2, 3]

/-- The loop of line 96 run over the indices in `l`, with the local `nextStep` given. -/
def Fuse.loop (s : Fuse) (inp : Inputs) (nextStep : Bool) (l : List (Fin 4)) : Fuse :=
  l.foldl (Fuse.channel inp nextStep) s

/-- The state when the loop iteration for channel `i` starts: the iterations for the
lower indices have run. -/
def Fuse.atChannel (s : Fuse) (inp : Inputs) (i : Fin 4) : Fuse :=
  (s.enterLoop inp).loop inp (s.clockEdge inp) (channels.take i.val)

/-- One call of `Fuse::step` (lines 69-112). -/
def Fuse.step (s : Fuse) (inp : Inputs) : Fuse :=
  (s.enterLoop inp).loop inp (s.clockEdge inp) channels

/-- Whether channel `i` fires in the tick: the condition of line 103 as evaluated in the
iteration for `i`, so that `pulse[i].trigger(1e-3)` is called. -/
def Fuse.fires (s : Fuse) (inp : Inputs) (i : Fin 4) : Bool :=
  ((s.atChannel inp i).armChannel inp i).fireCond (s.clockEdge inp) i

/-- The flag `p` of line 109: what the pulse timer of channel `i` reports in the tick. -/
def Fuse.pulseActive (s : Fuse) (inp : Inputs) (i : Fin 4) : Bool :=
  let s1 := (s.atChannel inp i).armChannel inp i
  let s2 := if s1.fireCond (s.clockEdge inp) i then s1.fire i else s1
  ((s2.pulse.get i).process (1 / inp.sampleRate)).2

/-- The value of `gateOn` read by line 110 in the iteration for channel `i`. -/
def Fuse.gateAt (s : Fuse) (inp : Inputs) (i : Fin 4) : Bool :=
  let s1 := (s.atChannel inp i).armChannel inp i
  let s2 := if s1.fireCond (s.clockEdge inp) i then s1.fire i else s1
  s2.gateOn

/-- The module state before tick `k` of a run that starts in `s` and receives `inp j` at
tick `j`. -/
def Fuse.run (s : Fuse) (inp : Nat → Inputs) : Nat → Fuse
  | 0 => s
  | k + 1 => (Fuse.run s inp k).step (inp k)

/-- The number of ticks before tick `n` in which a clock edge is detected. -/
def Fuse.clockEdges (s : Fuse) (inp : Nat → Inputs) : Nat → Nat
  | 0 => 0
  | k + 1 => Fuse.clockEdges s inp k + if (Fuse.run s inp k).clockEdge (inp k) then 1 else 0

/-- The time covered by the sample periods of the ticks `a, a+1, ..., a+n-1`. -/
def elapsed (inp : Nat → Inputs) (a : Nat) : Nat → ℚ
  | 0 => 0
  | n + 1 => elapsed inp a n + 1 / (inp (a + n)).sampleRate

/-! ## Concrete states and inputs used by the examples -/

/-- A connected port carrying the low level 0 V. -/
def portLow : Port := ⟨true, 0⟩

/-- A connected port carrying the high level 10 V. -/
def portHigh : Port := ⟨true, 10⟩

/-- An unconnected port. -/
def portOff : Port := ⟨false, 0⟩

/-- The host input of a tick in which nothing happens: toggles released, arm inputs
unconnected, clock and reset connected and low, sample rate 1000 Hz. -/
def idle : Inputs := ⟨Arr4.fill 0, Arr4.fill portOff, portLow, portLow, 1000⟩

/-- A constructed module (thresholds 1 V and 2 V) whose unassigned fields happen to hold
`false`. -/
def fresh : Fuse := Fuse.new 1 2 (Arr4.fill false) false

/-- A state with the phase counter at 15, channel 0 not armed. -/
def atFifteen : Fuse := { fresh with curstep := 15 }

/-- A state with the phase counter at 15 and channel 0 armed. -/
def atFifteenArmed : Fuse := { fresh with curstep := 15, armed := ⟨true, false, false, false⟩ }

/-- A clock edge arrives while the manual toggle of channel 0 is held. -/
def clockWithToggle0 : Inputs := { idle with clk := portHigh, switch := ⟨1, 0, 0, 0⟩ }

/-- A clock edge and a reset edge arrive in the same tick. -/
def clockWithReset : Inputs := { idle with clk := portHigh, reset := portHigh }

/-- A reset edge arrives while the manual toggle of channel 1 is held. -/
def resetWithToggle1 : Inputs := { idle with reset := portHigh, switch := ⟨0, 1, 0, 0⟩ }

/-- A reset edge and a clock edge arrive while the manual toggle of channel 0 is held. -/
def resetClockToggle0 : Inputs :=
  { idle with reset := portHigh, clk := portHigh, switch := ⟨1, 0, 0, 0⟩ }

/-- A state in Gate mode with the phase counter at 3 and channel 1 armed. -/
def gateAtThree : Fuse :=
  { fresh with gateMode := GateMode.GATE, curstep := 3, armed := ⟨false, true, false, false⟩ }

/-- A state in Gate mode with the phase counter at 15. -/
def gateAtFifteen : Fuse := { fresh with gateMode := GateMode.GATE, curstep := 15 }

/-- A clock edge and nothing else. -/
def clockOnly : Inputs := { idle with clk := portHigh }

/-- The input stream "a reset pulse, then a clock that alternates between high and low":
a reset edge at tick 0 and a clock edge at every odd tick. -/
def resetThenClock : Nat → Inputs := fun k =>
  if k = 0 then { idle with reset := portHigh }
  else if k % 2 = 1 then clockOnly else idle

/-- The input stream "a clock that alternates between high and low and no reset": a clock
edge at every even tick. -/
def clockFromHigh : Nat → Inputs := fun k =>
  if k % 2 = 0 then clockOnly else idle

/-- A state in Gate mode with the phase counter at 11 and channel 3 armed. -/
def gateAtEleven : Fuse :=
  { fresh with gateMode := GateMode.GATE, curstep := 11, armed := ⟨false, false, false, true⟩ }

/-- The alternating clock of `clockFromHigh`, with the manual toggle of channel 0 held in
tick 8. -/
def clockToggle0AtEight : Nat → Inputs := fun k =>
  if k = 8 then clockWithToggle0 else clockFromHigh k

/-- A state in Trigger mode with the phase counter at 3, channel 1 armed and `gateOn`
left set. -/
def triggerAtThree : Fuse :=
  { fresh with curstep := 3, armed := ⟨false, true, false, false⟩, gateOn := true }

/-- A constructed module whose unassigned field `armed[1]` happens to hold `true`. -/
def staleArmed : Fuse := Fuse.new 1 2 ⟨false, true, false, false⟩ false

/-! ## Auxiliary definitions used by the proofs -/

/-- The phase counter after lines 91-92, from its value `c` before them. -/
def nextPhase (c : Nat) : Nat :=
  if maxsteps ≤ (c + 1) % 2 ^ 32 then 0 else (c + 1) % 2 ^ 32

/-- Whether channel `i` would fire if its loop iteration started in state `s`. -/
def Fuse.wouldFire (s : Fuse) (inp : Inputs) (ns : Bool) (i : Fin 4) : Bool :=
  (s.armChannel inp i).fireCond ns i

/-- The pulse timer of channel `i` after lines 103-107 of its iteration. -/
def Fuse.pulseArmed (s : Fuse) (inp : Inputs) (ns : Bool) (i : Fin 4) : PulseGenerator :=
  if s.wouldFire inp ns i then (s.pulse.get i).trigger (1 / 1000) else s.pulse.get i

/-! # Lemmas -/

/-! ## Array lemmas -/

theorem Arr4.get_set {α : Type} (a : Arr4 α) (i j : Fin 4) (v : α) :
    (a.set i v).get j = if j = i then v else a.get j := by
  fin_cases i <;> fin_cases j <;> rfl

theorem Arr4.get_set_self {α : Type} (a : Arr4 α) (i : Fin 4) (v : α) :
    (a.set i v).get i = v := by
  simp [Arr4.get_set]

theorem Arr4.get_set_ne {α : Type} (a : Arr4 α) {i j : Fin 4} (v : α) (h : j ≠ i) :
    (a.set i v).get j = a.get j := by
  simp [Arr4.get_set, h]

theorem Arr4.get_fill {α : Type} (v : α) (i : Fin 4) : (Arr4.fill v).get i = v := by
  fin_cases i <;> rfl

theorem Arr4.get_map {α β : Type} (f : α → β) (a : Arr4 α) (i : Fin 4) :
    (a.map f).get i = f (a.get i) := by
  fin_cases i <;> rfl

/-! ## The blocks before the loop -/

theorem SchmittTrigger.process_snd (t : SchmittTrigger) (v : ℚ) :
    (t.process v).2 = (!t.state && decide (t.high < v)) := by
  unfold SchmittTrigger.process
  cases h : t.state <;> by_cases hv : t.high < v <;> simp [h, hv] <;> split_ifs <;> rfl

theorem Fuse.resetBlock_eq (s : Fuse) (inp : Inputs) :
    s.resetBlock inp =
      if s.resetEdge inp then
        { s with
          resetTrigger := (s.resetTrigger.process inp.reset.value).1
          curstep := maxsteps
          armTrigger := s.armTrigger.map SchmittTrigger.reset
          armed := Arr4.fill false
          gateOn := false }
      else if inp.reset.active then
        { s with resetTrigger := (s.resetTrigger.process inp.reset.value).1 }
      else s := by
  unfold Fuse.resetBlock Fuse.resetEdge
  cases h : inp.reset.active <;> simp

theorem Fuse.resetBlock_clockTrigger (s : Fuse) (inp : Inputs) :
    (s.resetBlock inp).clockTrigger = s.clockTrigger := by
  rw [Fuse.resetBlock_eq]; split_ifs <;> rfl

theorem Fuse.resetBlock_gateMode (s : Fuse) (inp : Inputs) :
    (s.resetBlock inp).gateMode = s.gateMode := by
  rw [Fuse.resetBlock_eq]; split_ifs <;> rfl

theorem Fuse.resetBlock_pulse (s : Fuse) (inp : Inputs) :
    (s.resetBlock inp).pulse = s.pulse := by
  rw [Fuse.resetBlock_eq]; split_ifs <;> rfl

theorem Fuse.resetBlock_curstep (s : Fuse) (inp : Inputs) :
    (s.resetBlock inp).curstep = if s.resetEdge inp then maxsteps else s.curstep := by
  rw [Fuse.resetBlock_eq]; split_ifs <;> rfl

theorem Fuse.resetBlock_gateOn (s : Fuse) (inp : Inputs) :
    (s.resetBlock inp).gateOn = if s.resetEdge inp then false else s.gateOn := by
  rw [Fuse.resetBlock_eq]; split_ifs <;> rfl

theorem Fuse.resetBlock_armed (s : Fuse) (inp : Inputs) :
    (s.resetBlock inp).armed = if s.resetEdge inp then Arr4.fill false else s.armed := by
  rw [Fuse.resetBlock_eq]; split_ifs <;> rfl

theorem Fuse.resetBlock_armTrigger (s : Fuse) (inp : Inputs) :
    (s.resetBlock inp).armTrigger =
      if s.resetEdge inp then s.armTrigger.map SchmittTrigger.reset else s.armTrigger := by
  rw [Fuse.resetBlock_eq]; split_ifs <;> rfl

theorem Fuse.clockEdge_eq (s : Fuse) (inp : Inputs) :
    s.clockEdge inp = (inp.clk.active && (s.clockTrigger.process inp.clk.value).2) := by
  unfold Fuse.clockEdge Fuse.clockBlock
  rw [Fuse.resetBlock_clockTrigger]
  cases inp.clk.active <;> simp

theorem Fuse.clockBlock_fst (s : Fuse) (inp : Inputs) :
    (s.clockBlock inp).1 =
      { s with clockTrigger :=
          if inp.clk.active then (s.clockTrigger.process inp.clk.value).1
          else s.clockTrigger } := by
  unfold Fuse.clockBlock
  cases inp.clk.active <;> simp

theorem Fuse.advance_eq (s : Fuse) (ns : Bool) :
    s.advance ns =
      if ns then
        { s with
          curstep := nextPhase s.curstep
          gateOn := if nextPhase s.curstep % 4 = 0 then false else s.gateOn }
      else s := by
  unfold Fuse.advance nextPhase
  cases ns <;> simp

theorem Fuse.enterLoop_curstep (s : Fuse) (inp : Inputs) :
    (s.enterLoop inp).curstep =
      if s.clockEdge inp then nextPhase (if s.resetEdge inp then maxsteps else s.curstep)
      else if s.resetEdge inp then maxsteps else s.curstep := by
  unfold Fuse.enterLoop
  simp only [Fuse.advance_eq, Fuse.clockBlock_fst]
  rw [show ((s.resetBlock inp).clockBlock inp).2 = s.clockEdge inp from rfl]
  split_ifs <;> simp [Fuse.resetBlock_curstep, *]

theorem Fuse.enterLoop_gateOn (s : Fuse) (inp : Inputs) :
    (s.enterLoop inp).gateOn =
      if s.clockEdge inp = true ∧ (s.enterLoop inp).curstep % 4 = 0 then false
      else if s.resetEdge inp then false else s.gateOn := by
  rw [Fuse.enterLoop_curstep]
  unfold Fuse.enterLoop
  simp only [Fuse.advance_eq, Fuse.clockBlock_fst]
  rw [show ((s.resetBlock inp).clockBlock inp).2 = s.clockEdge inp from rfl]
  split_ifs <;> simp_all [Fuse.resetBlock_curstep, Fuse.resetBlock_gateOn]

theorem Fuse.enterLoop_gateMode (s : Fuse) (inp : Inputs) :
    (s.enterLoop inp).gateMode = s.gateMode := by
  unfold Fuse.enterLoop
  simp only [Fuse.advance_eq, Fuse.clockBlock_fst]
  split_ifs <;> simp [Fuse.resetBlock_gateMode]

theorem Fuse.enterLoop_pulse (s : Fuse) (inp : Inputs) :
    (s.enterLoop inp).pulse = s.pulse := by
  unfold Fuse.enterLoop
  simp only [Fuse.advance_eq, Fuse.clockBlock_fst]
  split_ifs <;> simp [Fuse.resetBlock_pulse]

theorem Fuse.enterLoop_armed (s : Fuse) (inp : Inputs) :
    (s.enterLoop inp).armed = if s.resetEdge inp then Arr4.fill false else s.armed := by
  unfold Fuse.enterLoop
  simp only [Fuse.advance_eq, Fuse.clockBlock_fst]
  split_ifs <;> simp [Fuse.resetBlock_armed, *]

theorem Fuse.enterLoop_armTrigger (s : Fuse) (inp : Inputs) :
    (s.enterLoop inp).armTrigger =
      if s.resetEdge inp then s.armTrigger.map SchmittTrigger.reset else s.armTrigger := by
  unfold Fuse.enterLoop
  simp only [Fuse.advance_eq, Fuse.clockBlock_fst]
  split_ifs <;> simp [Fuse.resetBlock_armTrigger, *]

/-! ## One iteration of the channel loop -/

/-- The arming outcome of lines 98-99 for channel `i` in state `s`. -/
theorem Fuse.armChannel_armed_get (s : Fuse) (inp : Inputs) (i j : Fin 4) :
    ((s.armChannel inp i).armed.get j) =
      if j = i then
        (s.armed.get i || decide (0 < inp.switch.get i) ||
          ((s.armTrigger.get i).process ((inp.arm.get i).normalize 0)).2)
      else s.armed.get j := by
  unfold Fuse.armChannel
  by_cases hj : j = i
  · subst hj
    by_cases h1 : 0 < inp.switch.get j <;>
      cases h2 : ((s.armTrigger.get j).process ((inp.arm.get j).normalize 0)).2 <;>
      simp [h1, h2, Arr4.get_set]
  · by_cases h1 : 0 < inp.switch.get i <;>
      cases h2 : ((s.armTrigger.get i).process ((inp.arm.get i).normalize 0)).2 <;>
      simp [h1, h2, hj, Arr4.get_set]

theorem Fuse.armChannel_curstep (s : Fuse) (inp : Inputs) (i : Fin 4) :
    (s.armChannel inp i).curstep = s.curstep := by
  unfold Fuse.armChannel
  simp only []
  split_ifs <;> rfl

theorem Fuse.armChannel_gateMode (s : Fuse) (inp : Inputs) (i : Fin 4) :
    (s.armChannel inp i).gateMode = s.gateMode := by
  unfold Fuse.armChannel
  simp only []
  split_ifs <;> rfl

theorem Fuse.armChannel_gateOn (s : Fuse) (inp : Inputs) (i : Fin 4) :
    (s.armChannel inp i).gateOn = s.gateOn := by
  unfold Fuse.armChannel
  simp only []
  split_ifs <;> rfl

theorem Fuse.armChannel_pulse (s : Fuse) (inp : Inputs) (i : Fin 4) :
    (s.armChannel inp i).pulse = s.pulse := by
  unfold Fuse.armChannel
  simp only []
  split_ifs <;> rfl

theorem Fuse.armChannel_outputs (s : Fuse) (inp : Inputs) (i : Fin 4) :
    (s.armChannel inp i).outputs = s.outputs := by
  unfold Fuse.armChannel
  simp only []
  split_ifs <;> rfl

theorem Fuse.armChannel_armTrigger_get (s : Fuse) (inp : Inputs) (i j : Fin 4) :
    (s.armChannel inp i).armTrigger.get j =
      if j = i then ((s.armTrigger.get i).process ((inp.arm.get i).normalize 0)).1
      else s.armTrigger.get j := by
  unfold Fuse.armChannel
  simp only []
  split_ifs <;> simp_all [Arr4.get_set]

theorem Fuse.wouldFire_eq (s : Fuse) (inp : Inputs) (ns : Bool) (i : Fin 4) :
    s.wouldFire inp ns i =
      (ns && decide (i.val * 4 = s.curstep) &&
        (s.armed.get i || decide (0 < inp.switch.get i) ||
          ((s.armTrigger.get i).process ((inp.arm.get i).normalize 0)).2)) := by
  unfold Fuse.wouldFire Fuse.fireCond
  rw [Fuse.armChannel_curstep, Fuse.armChannel_armed_get]
  simp

theorem Fuse.channel_curstep (s : Fuse) (inp : Inputs) (ns : Bool) (i : Fin 4) :
    (Fuse.channel inp ns s i).curstep = s.curstep := by
  unfold Fuse.channel Fuse.emit Fuse.fire
  simp only []
  split_ifs <;> simp [Fuse.armChannel_curstep]

theorem Fuse.channel_gateMode (s : Fuse) (inp : Inputs) (ns : Bool) (i : Fin 4) :
    (Fuse.channel inp ns s i).gateMode = s.gateMode := by
  unfold Fuse.channel Fuse.emit Fuse.fire
  simp only []
  split_ifs <;> simp [Fuse.armChannel_gateMode]

theorem Fuse.channel_gateOn (s : Fuse) (inp : Inputs) (ns : Bool) (i : Fin 4) :
    (Fuse.channel inp ns s i).gateOn =
      (s.gateOn || (decide (s.gateMode = GateMode.GATE) && s.wouldFire inp ns i)) := by
  unfold Fuse.channel Fuse.emit Fuse.fire Fuse.wouldFire
  simp only []
  split_ifs <;> simp_all [Fuse.armChannel_gateMode, Fuse.armChannel_gateOn]

theorem Fuse.channel_armed_get (s : Fuse) (inp : Inputs) (ns : Bool) (i j : Fin 4) :
    (Fuse.channel inp ns s i).armed.get j =
      if j = i then
        (!s.wouldFire inp ns i &&
          (s.armed.get i || decide (0 < inp.switch.get i) ||
            ((s.armTrigger.get i).process ((inp.arm.get i).normalize 0)).2))
      else s.armed.get j := by
  unfold Fuse.channel Fuse.emit Fuse.fire Fuse.wouldFire
  simp only []
  split_ifs <;> simp_all [Fuse.armChannel_armed_get, Arr4.get_set]

theorem Fuse.channel_armTrigger_get (s : Fuse) (inp : Inputs) (ns : Bool) (i j : Fin 4) :
    (Fuse.channel inp ns s i).armTrigger.get j =
      if j = i then ((s.armTrigger.get i).process ((inp.arm.get i).normalize 0)).1
      else s.armTrigger.get j := by
  unfold Fuse.channel Fuse.emit Fuse.fire
  simp only []
  split_ifs <;> simp_all [Fuse.armChannel_armTrigger_get]

theorem Fuse.channel_pulse_get (s : Fuse) (inp : Inputs) (ns : Bool) (i j : Fin 4) :
    (Fuse.channel inp ns s i).pulse.get j =
      if j = i then ((s.pulseArmed inp ns i).process (1 / inp.sampleRate)).1
      else s.pulse.get j := by
  unfold Fuse.channel Fuse.emit Fuse.fire Fuse.pulseArmed Fuse.wouldFire
  simp only []
  split_ifs <;> simp_all [Fuse.armChannel_pulse, Arr4.get_set]

theorem Fuse.channel_outputs_get (s : Fuse) (inp : Inputs) (ns : Bool) (i j : Fin 4) :
    (Fuse.channel inp ns s i).outputs.get j =
      if j = i then
        (if (Fuse.channel inp ns s i).gateOn = true ∨
            ((s.pulseArmed inp ns i).process (1 / inp.sampleRate)).2 = true then 10 else 0)
      else s.outputs.get j := by
  rw [Fuse.channel_gateOn]
  unfold Fuse.channel Fuse.emit Fuse.fire Fuse.pulseArmed Fuse.wouldFire
  simp only []
  split_ifs <;>
    simp_all [Fuse.armChannel_pulse, Fuse.armChannel_outputs, Fuse.armChannel_gateOn,
      Fuse.armChannel_gateMode, Arr4.get_set]

/-! ## The channel loop -/

theorem Fuse.loop_nil (s : Fuse) (inp : Inputs) (ns : Bool) : s.loop inp ns [] = s := rfl

theorem Fuse.loop_cons (s : Fuse) (inp : Inputs) (ns : Bool) (i : Fin 4) (l : List (Fin 4)) :
    s.loop inp ns (i :: l) = (Fuse.channel inp ns s i).loop inp ns l := rfl

theorem Fuse.loop_append (s : Fuse) (inp : Inputs) (ns : Bool) (l1 l2 : List (Fin 4)) :
    s.loop inp ns (l1 ++ l2) = (s.loop inp ns l1).loop inp ns l2 := by
  unfold Fuse.loop
  rw [List.foldl_append]

theorem Fuse.loop_curstep (s : Fuse) (inp : Inputs) (ns : Bool) (l : List (Fin 4)) :
    (s.loop inp ns l).curstep = s.curstep := by
  induction l generalizing s with
  | nil => rfl
  | cons i l ih => rw [Fuse.loop_cons, ih, Fuse.channel_curstep]

theorem Fuse.loop_gateMode (s : Fuse) (inp : Inputs) (ns : Bool) (l : List (Fin 4)) :
    (s.loop inp ns l).gateMode = s.gateMode := by
  induction l generalizing s with
  | nil => rfl
  | cons i l ih => rw [Fuse.loop_cons, ih, Fuse.channel_gateMode]

theorem Fuse.loop_armed_get (s : Fuse) (inp : Inputs) (ns : Bool) (l : List (Fin 4))
    (j : Fin 4) (hj : j ∉ l) : (s.loop inp ns l).armed.get j = s.armed.get j := by
  induction l generalizing s with
  | nil => rfl
  | cons i l ih =>
    rw [List.mem_cons, not_or] at hj
    rw [Fuse.loop_cons, ih _ hj.2, Fuse.channel_armed_get, if_neg hj.1]

theorem Fuse.loop_armTrigger_get (s : Fuse) (inp : Inputs) (ns : Bool) (l : List (Fin 4))
    (j : Fin 4) (hj : j ∉ l) : (s.loop inp ns l).armTrigger.get j = s.armTrigger.get j := by
  induction l generalizing s with
  | nil => rfl
  | cons i l ih =>
    rw [List.mem_cons, not_or] at hj
    rw [Fuse.loop_cons, ih _ hj.2, Fuse.channel_armTrigger_get, if_neg hj.1]

theorem Fuse.loop_pulse_get (s : Fuse) (inp : Inputs) (ns : Bool) (l : List (Fin 4))
    (j : Fin 4) (hj : j ∉ l) : (s.loop inp ns l).pulse.get j = s.pulse.get j := by
  induction l generalizing s with
  | nil => rfl
  | cons i l ih =>
    rw [List.mem_cons, not_or] at hj
    rw [Fuse.loop_cons, ih _ hj.2, Fuse.channel_pulse_get, if_neg hj.1]

theorem Fuse.loop_outputs_get (s : Fuse) (inp : Inputs) (ns : Bool) (l : List (Fin 4))
    (j : Fin 4) (hj : j ∉ l) : (s.loop inp ns l).outputs.get j = s.outputs.get j := by
  induction l generalizing s with
  | nil => rfl
  | cons i l ih =>
    rw [List.mem_cons, not_or] at hj
    rw [Fuse.loop_cons, ih _ hj.2, Fuse.channel_outputs_get, if_neg hj.1]

theorem Fuse.wouldFire_congr (s t : Fuse) (inp : Inputs) (ns : Bool) (i : Fin 4)
    (hc : t.curstep = s.curstep) (ha : t.armed.get i = s.armed.get i)
    (ht : t.armTrigger.get i = s.armTrigger.get i) :
    t.wouldFire inp ns i = s.wouldFire inp ns i := by
  rw [Fuse.wouldFire_eq, Fuse.wouldFire_eq, hc, ha, ht]

theorem Fuse.wouldFire_loop (s : Fuse) (inp : Inputs) (ns : Bool) (l : List (Fin 4))
    (j : Fin 4) (hj : j ∉ l) :
    (s.loop inp ns l).wouldFire inp ns j = s.wouldFire inp ns j :=
  Fuse.wouldFire_congr s _ inp ns j (Fuse.loop_curstep s inp ns l)
    (Fuse.loop_armed_get s inp ns l j hj) (Fuse.loop_armTrigger_get s inp ns l j hj)

theorem Fuse.loop_gateOn (s : Fuse) (inp : Inputs) (ns : Bool) (l : List (Fin 4))
    (hl : l.Nodup) :
    (s.loop inp ns l).gateOn =
      (s.gateOn || (decide (s.gateMode = GateMode.GATE) &&
        l.any (fun j => s.wouldFire inp ns j))) := by
  induction l generalizing s with
  | nil => simp [Fuse.loop_nil]
  | cons i l ih =>
    rw [List.nodup_cons] at hl
    rw [Fuse.loop_cons, ih _ hl.2, Fuse.channel_gateOn, Fuse.channel_gateMode]
    have hany : l.any (fun j => (Fuse.channel inp ns s i).wouldFire inp ns j)
        = l.any (fun j => s.wouldFire inp ns j) := by
      have hk : ∀ k ∈ l, (Fuse.channel inp ns s i).wouldFire inp ns k = s.wouldFire inp ns k := by
        intro k hk
        have hne : k ≠ i := fun h => hl.1 (h ▸ hk)
        apply Fuse.wouldFire_congr
        · exact Fuse.channel_curstep s inp ns i
        · rw [Fuse.channel_armed_get, if_neg hne]
        · rw [Fuse.channel_armTrigger_get, if_neg hne]
      rw [Bool.eq_iff_iff, List.any_eq_true, List.any_eq_true]
      constructor
      · rintro ⟨k, hkl, hf⟩
        exact ⟨k, hkl, (hk k hkl) ▸ hf⟩
      · rintro ⟨k, hkl, hf⟩
        exact ⟨k, hkl, (hk k hkl).symm ▸ hf⟩
    rw [hany, List.any_cons]
    cases s.gateOn <;> cases decide (s.gateMode = GateMode.GATE) <;> simp

/-! ## The loop as seen from one channel -/

theorem channels_split (i : Fin 4) :
    channels = channels.take i.val ++ i :: channels.drop (i.val + 1) := by
  fin_cases i <;> rfl

theorem not_mem_take_channels (i : Fin 4) : i ∉ channels.take i.val := by
  fin_cases i <;> decide

theorem not_mem_drop_channels (i : Fin 4) : i ∉ channels.drop (i.val + 1) := by
  fin_cases i <;> decide

theorem channels_nodup : channels.Nodup := by decide

theorem take_channels_nodup (i : Fin 4) : (channels.take i.val).Nodup := by
  fin_cases i <;> decide

theorem mem_take_channels (i j : Fin 4) : j ∈ channels.take i.val ↔ j < i := by
  revert i j; decide

theorem mem_channels (j : Fin 4) : j ∈ channels := by
  revert j; decide

theorem Fuse.step_split (s : Fuse) (inp : Inputs) (i : Fin 4) :
    s.step inp =
      (Fuse.channel inp (s.clockEdge inp) (s.atChannel inp i) i).loop inp (s.clockEdge inp)
        (channels.drop (i.val + 1)) := by
  unfold Fuse.step Fuse.atChannel
  conv_lhs => rw [channels_split i]
  rw [Fuse.loop_append, Fuse.loop_cons]

theorem Fuse.atChannel_curstep (s : Fuse) (inp : Inputs) (i : Fin 4) :
    (s.atChannel inp i).curstep = (s.enterLoop inp).curstep :=
  Fuse.loop_curstep _ _ _ _

theorem Fuse.atChannel_gateMode (s : Fuse) (inp : Inputs) (i : Fin 4) :
    (s.atChannel inp i).gateMode = s.gateMode := by
  unfold Fuse.atChannel
  rw [Fuse.loop_gateMode, Fuse.enterLoop_gateMode]

theorem Fuse.atChannel_armed_get (s : Fuse) (inp : Inputs) (i : Fin 4) :
    (s.atChannel inp i).armed.get i = (s.enterLoop inp).armed.get i :=
  Fuse.loop_armed_get _ _ _ _ _ (not_mem_take_channels i)

theorem Fuse.atChannel_armTrigger_get (s : Fuse) (inp : Inputs) (i : Fin 4) :
    (s.atChannel inp i).armTrigger.get i = (s.enterLoop inp).armTrigger.get i :=
  Fuse.loop_armTrigger_get _ _ _ _ _ (not_mem_take_channels i)

theorem Fuse.atChannel_pulse_get (s : Fuse) (inp : Inputs) (i : Fin 4) :
    (s.atChannel inp i).pulse.get i = s.pulse.get i := by
  unfold Fuse.atChannel
  rw [Fuse.loop_pulse_get _ _ _ _ _ (not_mem_take_channels i), Fuse.enterLoop_pulse]

theorem Fuse.fires_eq_wouldFire (s : Fuse) (inp : Inputs) (i : Fin 4) :
    s.fires inp i = (s.enterLoop inp).wouldFire inp (s.clockEdge inp) i :=
  Fuse.wouldFire_loop _ _ _ _ _ (not_mem_take_channels i)

theorem Fuse.atChannel_wouldFire (s : Fuse) (inp : Inputs) (i : Fin 4) :
    (s.atChannel inp i).wouldFire inp (s.clockEdge inp) i = s.fires inp i := rfl

theorem Fuse.step_curstep (s : Fuse) (inp : Inputs) :
    (s.step inp).curstep = (s.enterLoop inp).curstep :=
  Fuse.loop_curstep _ _ _ _

theorem Fuse.step_gateMode (s : Fuse) (inp : Inputs) :
    (s.step inp).gateMode = s.gateMode := by
  unfold Fuse.step
  rw [Fuse.loop_gateMode, Fuse.enterLoop_gateMode]

/-! ## One tick as seen from one channel -/

theorem Fuse.gateAt_eq_channel (s : Fuse) (inp : Inputs) (i : Fin 4) :
    s.gateAt inp i = (Fuse.channel inp (s.clockEdge inp) (s.atChannel inp i) i).gateOn := by
  unfold Fuse.gateAt Fuse.channel Fuse.emit
  rfl

theorem Fuse.pulseActive_eq (s : Fuse) (inp : Inputs) (i : Fin 4) :
    s.pulseActive inp i =
      ((if s.fires inp i then (s.pulse.get i).trigger (1 / 1000) else s.pulse.get i).process
        (1 / inp.sampleRate)).2 := by
  unfold Fuse.pulseActive
  simp only []
  rw [show ((s.atChannel inp i).armChannel inp i).fireCond (s.clockEdge inp) i
    = s.fires inp i from rfl]
  cases s.fires inp i <;>
    simp [Fuse.fire, Arr4.get_set, Fuse.armChannel_pulse, Fuse.atChannel_pulse_get]

theorem Fuse.step_armed_get (s : Fuse) (inp : Inputs) (i : Fin 4) :
    (s.step inp).armed.get i =
      (!s.fires inp i &&
        ((!s.resetEdge inp && s.armed.get i) || decide (0 < inp.switch.get i) ||
          ((if s.resetEdge inp then (s.armTrigger.get i).reset else s.armTrigger.get i).process
            ((inp.arm.get i).normalize 0)).2)) := by
  rw [Fuse.step_split s inp i, Fuse.loop_armed_get _ _ _ _ _ (not_mem_drop_channels i),
    Fuse.channel_armed_get, if_pos rfl, Fuse.atChannel_wouldFire, Fuse.atChannel_armed_get,
    Fuse.atChannel_armTrigger_get, Fuse.enterLoop_armed, Fuse.enterLoop_armTrigger]
  cases s.resetEdge inp <;> simp [Arr4.get_fill, Arr4.get_map]

theorem Fuse.fires_eq (s : Fuse) (inp : Inputs) (i : Fin 4) :
    s.fires inp i =
      (s.clockEdge inp && decide (i.val * 4 = (s.step inp).curstep) &&
        ((!s.resetEdge inp && s.armed.get i) || decide (0 < inp.switch.get i) ||
          ((if s.resetEdge inp then (s.armTrigger.get i).reset else s.armTrigger.get i).process
            ((inp.arm.get i).normalize 0)).2)) := by
  rw [Fuse.fires_eq_wouldFire, Fuse.wouldFire_eq, Fuse.step_curstep, Fuse.enterLoop_armed,
    Fuse.enterLoop_armTrigger]
  cases s.resetEdge inp <;> simp [Arr4.get_fill, Arr4.get_map]

theorem Fuse.step_pulse_get (s : Fuse) (inp : Inputs) (i : Fin 4) :
    (s.step inp).pulse.get i =
      ((if s.fires inp i then (s.pulse.get i).trigger (1 / 1000) else s.pulse.get i).process
        (1 / inp.sampleRate)).1 := by
  rw [Fuse.step_split s inp i, Fuse.loop_pulse_get _ _ _ _ _ (not_mem_drop_channels i),
    Fuse.channel_pulse_get, if_pos rfl]
  unfold Fuse.pulseArmed
  rw [Fuse.atChannel_wouldFire, Fuse.atChannel_pulse_get]

theorem Fuse.step_outputs_get (s : Fuse) (inp : Inputs) (i : Fin 4) :
    (s.step inp).outputs.get i =
      if s.gateAt inp i = true ∨ s.pulseActive inp i = true then 10 else 0 := by
  rw [Fuse.step_split s inp i, Fuse.loop_outputs_get _ _ _ _ _ (not_mem_drop_channels i),
    Fuse.channel_outputs_get, if_pos rfl, ← Fuse.gateAt_eq_channel, Fuse.pulseActive_eq]
  unfold Fuse.pulseArmed
  rw [Fuse.atChannel_wouldFire, Fuse.atChannel_pulse_get]

theorem Fuse.gateAt_iff (s : Fuse) (inp : Inputs) (i : Fin 4) :
    s.gateAt inp i = true ↔
      (s.enterLoop inp).gateOn = true ∨
        (s.gateMode = GateMode.GATE ∧ ∃ j, j ≤ i ∧ s.fires inp j = true) := by
  rw [Fuse.gateAt_eq_channel, Fuse.channel_gateOn, Fuse.atChannel_wouldFire,
    Fuse.atChannel_gateMode]
  unfold Fuse.atChannel
  rw [Fuse.loop_gateOn _ _ _ _ (take_channels_nodup i), Fuse.enterLoop_gateMode]
  simp only [Bool.or_eq_true, Bool.and_eq_true, decide_eq_true_eq, List.any_eq_true,
    mem_take_channels, ← Fuse.fires_eq_wouldFire]
  constructor
  · rintro ((h | ⟨hm, j, hj, hf⟩) | ⟨hm, hf⟩)
    · exact Or.inl h
    · exact Or.inr ⟨hm, j, le_of_lt hj, hf⟩
    · exact Or.inr ⟨hm, i, le_refl i, hf⟩
  · rintro (h | ⟨hm, j, hj, hf⟩)
    · exact Or.inl (Or.inl h)
    · rcases lt_or_eq_of_le hj with hlt | heq
      · exact Or.inl (Or.inr ⟨hm, j, hlt, hf⟩)
      · exact Or.inr ⟨hm, heq ▸ hf⟩

theorem Fuse.step_gateOn_iff (s : Fuse) (inp : Inputs) :
    (s.step inp).gateOn = true ↔
      (s.enterLoop inp).gateOn = true ∨
        (s.gateMode = GateMode.GATE ∧ ∃ j, s.fires inp j = true) := by
  unfold Fuse.step
  rw [Fuse.loop_gateOn _ _ _ _ channels_nodup, Fuse.enterLoop_gateMode]
  simp only [Bool.or_eq_true, Bool.and_eq_true, decide_eq_true_eq, List.any_eq_true,
    mem_channels, true_and, ← Fuse.fires_eq_wouldFire]

/-! ## Runs -/

theorem Fuse.run_succ (s : Fuse) (inp : Nat → Inputs) (k : Nat) :
    s.run inp (k + 1) = (s.run inp k).step (inp k) := rfl

theorem Fuse.run_gateMode (s : Fuse) (inp : Nat → Inputs) (k : Nat) :
    (s.run inp k).gateMode = s.gateMode := by
  induction k with
  | zero => rfl
  | succ k ih => rw [Fuse.run_succ, Fuse.step_gateMode, ih]

theorem nextPhase_maxsteps : nextPhase maxsteps = 0 := by decide

theorem nextPhase_of_lt (c : Nat) (h : c < maxsteps) : nextPhase c = (c + 1) % 16 := by
  unfold nextPhase maxsteps at *
  have h1 : (c + 1) % 2 ^ 32 = c + 1 := Nat.mod_eq_of_lt (by norm_num; omega)
  rw [h1]
  split_ifs <;> omega

theorem nextPhase_of_le (c : Nat) (h : c ≤ maxsteps) :
    nextPhase c = if c = maxsteps then 0 else (c + 1) % 16 := by
  rcases Nat.lt_or_eq_of_le h with hlt | heq
  · rw [nextPhase_of_lt c hlt, if_neg (Nat.ne_of_lt hlt)]
  · rw [heq, nextPhase_maxsteps, if_pos rfl]

theorem Fuse.step_curstep_eq (s : Fuse) (inp : Inputs) :
    (s.step inp).curstep =
      if s.clockEdge inp then nextPhase (if s.resetEdge inp then maxsteps else s.curstep)
      else if s.resetEdge inp then maxsteps else s.curstep := by
  rw [Fuse.step_curstep, Fuse.enterLoop_curstep]

/-- After a reset edge the phase counter stays at `maxsteps` as long as no clock edge is
detected. -/
theorem Fuse.curstep_after_reset (s : Fuse) (inp : Nat → Inputs) (t n : Nat)
    (hreset : (s.run inp t).resetEdge (inp t) = true)
    (hquiet : ∀ k, t ≤ k → k < t + n + 1 → (s.run inp k).clockEdge (inp k) = false) :
    (s.run inp (t + n + 1)).curstep = maxsteps := by
  induction n with
  | zero =>
    rw [Fuse.run_succ, Fuse.step_curstep_eq, hquiet t (le_refl t) (by omega), hreset]
    rfl
  | succ n ih =>
    have hprev : (s.run inp (t + (n + 1))).curstep = maxsteps :=
      ih (fun k h1 h2 => hquiet k h1 (by omega))
    rw [Fuse.run_succ, Fuse.step_curstep_eq, hquiet (t + (n + 1)) (by omega) (by omega), hprev]
    simp

/-- The phase counter along a run without reset edges, from a start value of at most
`maxsteps`. -/
theorem Fuse.curstep_run (s : Fuse) (inp : Nat → Inputs) (n : Nat)
    (hphase : s.curstep ≤ maxsteps)
    (hnoreset : ∀ k, k < n → (s.run inp k).resetEdge (inp k) = false) :
    (s.run inp n).curstep ≤ maxsteps ∧
    (s.curstep < maxsteps → (s.run inp n).curstep = (s.curstep + s.clockEdges inp n) % 16) ∧
    (s.curstep = maxsteps → (s.run inp n).curstep =
      if s.clockEdges inp n = 0 then maxsteps else (s.clockEdges inp n + 15) % 16) := by
  induction n with
  | zero =>
    refine ⟨hphase, fun h => ?_, fun h => ?_⟩
    · simp only [Fuse.run, Fuse.clockEdges, Nat.add_zero]
      unfold maxsteps at h
      omega
    · simp [Fuse.run, Fuse.clockEdges, h]
  | succ n ih =>
    obtain ⟨h1, h2, h3⟩ := ih (fun k hk => hnoreset k (by omega))
    have hstep : (s.run inp (n + 1)).curstep =
        if (s.run inp n).clockEdge (inp n) then nextPhase (s.run inp n).curstep
        else (s.run inp n).curstep := by
      rw [Fuse.run_succ, Fuse.step_curstep_eq, hnoreset n (by omega)]
      simp
    rw [hstep]
    clear hstep
    simp only [Fuse.clockEdges]
    cases (s.run inp n).clockEdge (inp n)
    · simp only [Bool.false_eq_true, if_false, Nat.add_zero]
      exact ⟨h1, h2, h3⟩
    · simp only [if_true]
      rw [nextPhase_of_le _ h1]
      unfold maxsteps at *
      refine ⟨?_, fun h => ?_, fun h => ?_⟩
      · split_ifs <;> omega
      · have := h2 h
        split_ifs <;> omega
      · have h4 := h3 h
        rw [if_neg (Nat.succ_ne_zero _)]
        by_cases he : s.clockEdges inp n = 0
        · rw [if_pos he] at h4
          rw [if_pos h4, he]
        · rw [if_neg he] at h4
          rw [if_neg (by omega)]
          omega

theorem nextPhase_le (c : Nat) : nextPhase c ≤ maxsteps := by
  unfold nextPhase maxsteps
  split_ifs <;> omega

/-- Every state reached from a state whose phase counter is at most `maxsteps`, such as a
constructed module, has a phase counter of at most `maxsteps`. -/
theorem Fuse.run_curstep_le (s : Fuse) (inp : Nat → Inputs) (hphase : s.curstep ≤ maxsteps)
    (n : Nat) : (s.run inp n).curstep ≤ maxsteps := by
  induction n with
  | zero => exact hphase
  | succ n ih =>
    rw [Fuse.run_succ, Fuse.step_curstep_eq]
    split_ifs
    · exact nextPhase_le _
    · exact nextPhase_le _
    · exact le_refl _
    · exact ih

theorem Fuse.new_curstep_le (lo hi : ℚ) (armed0 : Arr4 Bool) (gateOn0 : Bool) :
    (Fuse.new lo hi armed0 gateOn0).curstep ≤ maxsteps :=
  Nat.zero_le _

/-! ## The gate-held flag along a run -/

/-- A tick that detects no reset edge and no clock edge onto a multiple of 4 keeps a set
`gateOn` set when the loop is entered. -/
theorem Fuse.enterLoop_gateOn_keep (s : Fuse) (inp : Inputs) (hg : s.gateOn = true)
    (hr : s.resetEdge inp = false)
    (hb : ¬ (s.clockEdge inp = true ∧ (s.step inp).curstep % 4 = 0)) :
    (s.enterLoop inp).gateOn = true := by
  rw [Fuse.enterLoop_gateOn, ← Fuse.step_curstep, if_neg hb, hr, hg]
  rfl

/-- A clock edge onto a multiple of 4 clears `gateOn` before the loop is entered. -/
theorem Fuse.enterLoop_gateOn_boundary (s : Fuse) (inp : Inputs)
    (hb : s.clockEdge inp = true ∧ (s.step inp).curstep % 4 = 0) :
    (s.enterLoop inp).gateOn = false := by
  rw [Fuse.enterLoop_gateOn, ← Fuse.step_curstep, if_pos hb]

/-- A cleared `gateOn` is still cleared when the loop is entered. -/
theorem Fuse.enterLoop_gateOn_of_false (s : Fuse) (inp : Inputs) (hg : s.gateOn = false) :
    (s.enterLoop inp).gateOn = false := by
  rw [Fuse.enterLoop_gateOn, hg]
  split_ifs <;> rfl

/-- A firing channel sits on its own phase, a multiple of 4, reached by a clock edge. -/
theorem Fuse.boundary_of_fires (s : Fuse) (inp : Inputs) (i : Fin 4)
    (hf : s.fires inp i = true) :
    s.clockEdge inp = true ∧ (s.step inp).curstep % 4 = 0 := by
  rw [Fuse.fires_eq] at hf
  simp only [Bool.and_eq_true, decide_eq_true_eq] at hf
  exact ⟨hf.1.1, by omega⟩

theorem Fuse.gateOn_held (s : Fuse) (inp : Nat → Inputs) (i : Fin 4) (t0 : Nat)
    (hmode : s.gateMode = GateMode.GATE)
    (hfire : (s.run inp t0).fires (inp t0) i = true) (d : Nat)
    (hnoreset : ∀ k, t0 < k → k < t0 + 1 + d → (s.run inp k).resetEdge (inp k) = false)
    (hnobound : ∀ k, t0 < k → k < t0 + 1 + d →
      ¬ ((s.run inp k).clockEdge (inp k) = true ∧ (s.run inp (k + 1)).curstep % 4 = 0)) :
    (s.run inp (t0 + 1 + d)).gateOn = true := by
  induction d with
  | zero =>
    rw [Nat.add_zero, Fuse.run_succ, Fuse.step_gateOn_iff, Fuse.run_gateMode]
    exact Or.inr ⟨hmode, i, hfire⟩
  | succ d ih =>
    have hprev := ih (fun k h1 h2 => hnoreset k h1 (by omega))
      (fun k h1 h2 => hnobound k h1 (by omega))
    have hk : (s.run inp (t0 + 1 + (d + 1))) = (s.run inp (t0 + 1 + d)).step (inp (t0 + 1 + d)) :=
      rfl
    rw [hk, Fuse.step_gateOn_iff]
    exact Or.inl (Fuse.enterLoop_gateOn_keep _ _ hprev
      (hnoreset _ (by omega) (by omega)) (hnobound _ (by omega) (by omega)))

/-! ## The pulse timer along a run -/

theorem Fuse.pulseActive_eq_remaining (s : Fuse) (inp : Inputs) (i : Fin 4) :
    s.pulseActive inp i = decide (0 < ((s.step inp).pulse.get i).remaining) := by
  rw [Fuse.pulseActive_eq, Fuse.step_pulse_get]
  rfl

theorem Fuse.step_remaining_of_fires (s : Fuse) (inp : Inputs) (i : Fin 4)
    (hf : s.fires inp i = true) :
    ((s.step inp).pulse.get i).remaining = max 0 (1 / 1000 - 1 / inp.sampleRate) := by
  rw [Fuse.step_pulse_get, hf]
  rfl

theorem Fuse.step_remaining_of_not_fires (s : Fuse) (inp : Inputs) (i : Fin 4)
    (hf : s.fires inp i = false) :
    ((s.step inp).pulse.get i).remaining =
      max 0 ((s.pulse.get i).remaining - 1 / inp.sampleRate) := by
  rw [Fuse.step_pulse_get, hf]
  rfl

theorem max_zero_sub_of_nonneg (a d : ℚ) (hd : 0 ≤ d) : max 0 (max 0 a - d) = max 0 (a - d) := by
  rcases le_total a 0 with h | h
  · rw [max_eq_left h, max_eq_left (by linarith), max_eq_left (by linarith)]
  · rw [max_eq_right h]

theorem elapsed_succ (inp : Nat → Inputs) (a n : Nat) :
    elapsed inp a (n + 1) = elapsed inp a n + 1 / (inp (a + n)).sampleRate := rfl

theorem elapsed_mono (inp : Nat → Inputs) (a n : Nat) (hrate : ∀ k, 0 < (inp k).sampleRate) :
    elapsed inp a n ≤ elapsed inp a (n + 1) := by
  rw [elapsed_succ]
  have := one_div_pos.2 (hrate (a + n))
  linarith

/-- The remaining pulse time of a channel that fired in tick `t0` and has not fired since. -/
theorem Fuse.remaining_after_fire (s : Fuse) (inp : Nat → Inputs) (i : Fin 4) (t0 : Nat)
    (hrate : ∀ k, 0 < (inp k).sampleRate)
    (hfire : (s.run inp t0).fires (inp t0) i = true) (m : Nat)
    (hnofire : ∀ k, t0 < k → k ≤ t0 + m → (s.run inp k).fires (inp k) i = false) :
    ((s.run inp (t0 + m + 1)).pulse.get i).remaining =
      max 0 (1 / 1000 - elapsed inp t0 (m + 1)) := by
  induction m with
  | zero =>
    rw [Nat.add_zero, Fuse.run_succ, Fuse.step_remaining_of_fires _ _ _ hfire, elapsed_succ]
    simp [elapsed]
  | succ m ih =>
    have hprev := ih (fun k h1 h2 => hnofire k h1 (by omega))
    have hk : s.run inp (t0 + (m + 1) + 1) = (s.run inp (t0 + m + 1)).step (inp (t0 + (m + 1))) :=
      rfl
    have hnf : (s.run inp (t0 + m + 1)).fires (inp (t0 + (m + 1))) i = false :=
      hnofire (t0 + (m + 1)) (by omega) (by omega)
    rw [hk, Fuse.step_remaining_of_not_fires _ _ _ hnf, hprev, max_zero_sub_of_nonneg _ _ (le_of_lt (one_div_pos.2 (hrate _))),
      elapsed_succ inp t0 (m + 1), sub_add_eq_sub_sub]

/-- In Trigger mode `gateOn` is cleared by a firing tick and stays cleared. -/
theorem Fuse.gateOn_false_after_fire (s : Fuse) (inp : Nat → Inputs) (i : Fin 4) (t0 : Nat)
    (hmode : s.gateMode = GateMode.TRIGGER)
    (hfire : (s.run inp t0).fires (inp t0) i = true) (m : Nat) :
    (s.run inp (t0 + m + 1)).gateOn = false := by
  have hno : ∀ t : Fuse, t.gateMode = GateMode.TRIGGER → ∀ x : Inputs,
      (t.enterLoop x).gateOn = false → (t.step x).gateOn = false := by
    intro t ht x he
    rw [Bool.eq_false_iff]
    intro hc
    rcases (Fuse.step_gateOn_iff t x).1 hc with h | ⟨h, _⟩
    · rw [he] at h; exact Bool.false_ne_true h
    · rw [ht] at h; exact GateMode.noConfusion h
  induction m with
  | zero =>
    exact hno _ (by rw [Fuse.run_gateMode, hmode]) _
      (Fuse.enterLoop_gateOn_boundary _ _ (Fuse.boundary_of_fires _ _ i hfire))
  | succ m ih =>
    exact hno _ (by rw [Fuse.run_gateMode, hmode]) _ (Fuse.enterLoop_gateOn_of_false _ _ ih)

/-! ## The scenario of section 8 -/

theorem SchmittTrigger.process_high (t : SchmittTrigger) (v : ℚ) :
    (t.process v).1.high = t.high := by
  unfold SchmittTrigger.process
  split_ifs <;> rfl

theorem Fuse.step_armTrigger_get (s : Fuse) (inp : Inputs) (i : Fin 4) :
    (s.step inp).armTrigger.get i =
      ((if s.resetEdge inp then (s.armTrigger.get i).reset else s.armTrigger.get i).process
        ((inp.arm.get i).normalize 0)).1 := by
  rw [Fuse.step_split s inp i, Fuse.loop_armTrigger_get _ _ _ _ _ (not_mem_drop_channels i),
    Fuse.channel_armTrigger_get, if_pos rfl, Fuse.atChannel_armTrigger_get,
    Fuse.enterLoop_armTrigger]
  cases s.resetEdge inp <;> simp [Arr4.get_map]

/-- With the arm input unconnected and a detector threshold that is not negative, the arm
detector reports no edge. -/
theorem Fuse.no_arm_edge (t : SchmittTrigger) (p : Port) (hp : p.active = false)
    (hhi : 0 ≤ t.high) : (t.process (p.normalize 0)).2 = false := by
  rw [SchmittTrigger.process_snd]
  unfold Port.normalize
  rw [hp]
  simp [hhi]

/-- The property of claim C8 for a module whose `armed[i]` is false to begin with: with the
arm input of channel `i` unconnected, its toggle never above 0 and a high threshold of its
arm detector that is not negative, `armed[i]` is false before every tick and channel `i`
fires in no tick. -/
theorem Fuse.never_armed (s : Fuse) (inp : Nat → Inputs) (i : Fin 4)
    (harmed : s.armed.get i = false) (hhi : 0 ≤ (s.armTrigger.get i).high)
    (hin : ∀ k, ((inp k).arm.get i).active = false ∧ (inp k).switch.get i ≤ 0) (n : Nat) :
    ((s.run inp n).armed.get i = false ∧ 0 ≤ ((s.run inp n).armTrigger.get i).high) ∧
    (s.run inp n).fires (inp n) i = false := by
  have hedge : ∀ (t : Fuse) (x : Inputs), (x.arm.get i).active = false →
      0 ≤ (t.armTrigger.get i).high →
      ((if t.resetEdge x then (t.armTrigger.get i).reset else t.armTrigger.get i).process
        ((x.arm.get i).normalize 0)).2 = false := by
    intro t x hx ht
    apply Fuse.no_arm_edge _ _ hx
    split_ifs
    · exact ht
    · exact ht
  have hinv : (s.run inp n).armed.get i = false ∧ 0 ≤ ((s.run inp n).armTrigger.get i).high := by
    induction n with
    | zero => exact ⟨harmed, hhi⟩
    | succ n ih =>
      constructor
      · rw [Fuse.run_succ, Fuse.step_armed_get, ih.1, hedge _ _ (hin n).1 ih.2]
        simp [not_lt.2 (hin n).2]
      · rw [Fuse.run_succ, Fuse.step_armTrigger_get, SchmittTrigger.process_high]
        split_ifs
        · exact ih.2
        · exact ih.2
  refine ⟨hinv, ?_⟩
  rw [Fuse.fires_eq, hinv.1, hedge _ _ (hin n).1 hinv.2]
  simp [not_lt.2 (hin n).2]

/-! # The claims -/

/-- C1, counterexample. The claim reads the armed flag at the start of the tick; the code
reads it after the reset block and the arming lines of the same tick. With the phase at 15
and a clock edge: channel 0 fires although `armed[0]` was false before the tick, because
the toggle is held in the tick; and channel 0 does not fire although `armed[0]` was true
before the tick, because a reset edge in the same tick cleared it. -/
theorem C1_counterexample :
    (atFifteen.fires clockWithToggle0 0 = true ∧ atFifteen.armed.get 0 = false) ∧
    (atFifteenArmed.fires clockWithReset 0 = false ∧
      atFifteenArmed.clockEdge clockWithReset = true ∧
      (atFifteenArmed.step clockWithReset).curstep = 4 * (0 : Fin 4).val ∧
      atFifteenArmed.armed.get 0 = true) := by
  decide!

/-- C1, amended. Channel `i` fires in a tick if and only if a clock rising edge is detected
in that tick, the phase after advancing equals `4 * i`, and `armed[i]` is true when line 103
reads it: it was true before the tick and no reset edge is detected in the tick, or the
manual toggle of the channel is above 0 in the tick, or the arm detector of the channel
(reset first when a reset edge is detected) reports an edge in the tick. Whenever channel
`i` fires, `armed[i]` is false after the tick. -/
theorem C1_fires_iff (s : Fuse) (inp : Inputs) (i : Fin 4) :
    (s.fires inp i = true ↔
      s.clockEdge inp = true ∧ (s.step inp).curstep = 4 * i.val ∧
        ((s.armed.get i = true ∧ s.resetEdge inp = false) ∨ 0 < inp.switch.get i ∨
          ((if s.resetEdge inp then (s.armTrigger.get i).reset
            else s.armTrigger.get i).process ((inp.arm.get i).normalize 0)).2 = true)) ∧
    (s.fires inp i = true → (s.step inp).armed.get i = false) := by
  constructor
  · rw [Fuse.fires_eq]
    simp only [Bool.and_eq_true, Bool.or_eq_true, decide_eq_true_eq, Bool.not_eq_true']
    constructor
    · rintro ⟨⟨h1, h2⟩, h3⟩
      refine ⟨h1, by omega, ?_⟩
      rcases h3 with (⟨h, h'⟩ | h) | h
      · exact Or.inl ⟨h', h⟩
      · exact Or.inr (Or.inl h)
      · exact Or.inr (Or.inr h)
    · rintro ⟨h1, h2, h3⟩
      refine ⟨⟨h1, by omega⟩, ?_⟩
      rcases h3 with ⟨h, h'⟩ | h | h
      · exact Or.inl (Or.inl ⟨h', h⟩)
      · exact Or.inl (Or.inr h)
      · exact Or.inr h
  · intro h
    rw [Fuse.step_armed_get, h]
    rfl

/-- C2. If a reset rising edge is detected in tick `t`, and tick `t + n` is the first tick
at or after `t` in which a clock rising edge is detected, with no other reset edge in
between, then the phase counter is 0 after tick `t + n`; `n = 0` is the case of a clock
edge in the same tick as the reset edge. -/
theorem C2_reset_then_clock_lands_on_zero (s : Fuse) (inp : Nat → Inputs) (t n : Nat)
    (hreset : (s.run inp t).resetEdge (inp t) = true)
    (hquiet : ∀ k, t ≤ k → k < t + n → (s.run inp k).clockEdge (inp k) = false)
    (_hnoreset : ∀ k, t < k → k ≤ t + n → (s.run inp k).resetEdge (inp k) = false)
    (hclock : (s.run inp (t + n)).clockEdge (inp (t + n)) = true) :
    (s.run inp (t + n + 1)).curstep = 0 := by
  rw [Fuse.run_succ, Fuse.step_curstep_eq, hclock]
  cases n with
  | zero =>
    rw [Nat.add_zero, hreset]
    exact nextPhase_maxsteps
  | succ m =>
    have hprev : (s.run inp (t + (m + 1))).curstep = maxsteps :=
      Fuse.curstep_after_reset s inp t m hreset (fun k h1 h2 => hquiet k h1 (by omega))
    rw [hprev]
    simp [nextPhase_maxsteps]

/-- C2, witness: a reset edge at tick 0 and the first clock edge at tick 1. -/
theorem C2_reset_then_clock_lands_on_zero_witness :
    (fresh.run resetThenClock 0).resetEdge (resetThenClock 0) = true ∧
    (fresh.run resetThenClock (0 + 1)).clockEdge (resetThenClock (0 + 1)) = true ∧
    (fresh.run resetThenClock (0 + 1 + 1)).curstep = 0 :=
  ⟨by decide!, by decide!,
    C2_reset_then_clock_lands_on_zero fresh resetThenClock 0 1 (by decide!)
      (by intro k h1 h2; have hk : k = 0 := by omega
          subst hk; decide!)
      (by intro k h1 h2; have hk : k = 1 := by omega
          subst hk; decide!)
      (by decide!)⟩

/-- C3, counterexample. After a tick with a reset edge in which the toggle of channel 1 is
held, `armed[1]` is true; and in Gate mode, after a tick with a reset edge and a clock edge
in which the toggle of channel 0 is held, channel 0 fires and `gateOn` is true. -/
theorem C3_counterexample :
    (fresh.resetEdge resetWithToggle1 = true ∧
      (fresh.step resetWithToggle1).armed.get 1 = true) ∧
    (gateAtFifteen.resetEdge resetClockToggle0 = true ∧
      (gateAtFifteen.step resetClockToggle0).gateOn = true) := by
  decide!

/-- C3, amended. After a tick in which a reset rising edge is detected, `armed[i]` is true
exactly for the channels that are armed again in that same tick (manual toggle above 0, or
an edge reported by the arm detector after its reset) and do not fire in it, and `gateOn` is
true exactly when the mode is Gate and some channel fires in that tick. -/
theorem C3_after_reset_edge (s : Fuse) (inp : Inputs) (hreset : s.resetEdge inp = true) :
    (∀ i : Fin 4, (s.step inp).armed.get i = true ↔
      s.fires inp i = false ∧
        (0 < inp.switch.get i ∨
          ((s.armTrigger.get i).reset.process ((inp.arm.get i).normalize 0)).2 = true)) ∧
    ((s.step inp).gateOn = true ↔
      s.gateMode = GateMode.GATE ∧ ∃ j, s.fires inp j = true) := by
  constructor
  · intro i
    rw [Fuse.step_armed_get, hreset]
    simp
  · rw [Fuse.step_gateOn_iff, Fuse.enterLoop_gateOn, hreset]
    simp

/-- C3, witness. -/
theorem C3_after_reset_edge_witness :
    fresh.resetEdge resetWithToggle1 = true ∧
    ((∀ i : Fin 4, (fresh.step resetWithToggle1).armed.get i = true ↔
      fresh.fires resetWithToggle1 i = false ∧
        (0 < resetWithToggle1.switch.get i ∨
          ((fresh.armTrigger.get i).reset.process
            ((resetWithToggle1.arm.get i).normalize 0)).2 = true)) ∧
    ((fresh.step resetWithToggle1).gateOn = true ↔
      fresh.gateMode = GateMode.GATE ∧ ∃ j, fresh.fires resetWithToggle1 j = true)) :=
  ⟨by decide!, C3_after_reset_edge fresh resetWithToggle1 (by decide!)⟩

/-- C5, counterexample. In Gate mode channel 3 fires at tick 0 (phase 12). No reset edge
follows, and the next clock edge onto a multiple of 4 is the one of tick 8 (phase 0).
Channel 0, armed in that tick, fires at this boundary and sets `gateOn` again before
output 3 is written: output 3 is 10.0 after the boundary tick, not 0.0. -/
theorem C5_counterexample :
    gateAtEleven.gateMode = GateMode.GATE ∧
    (gateAtEleven.run clockToggle0AtEight 0).fires (clockToggle0AtEight 0) 3 = true ∧
    (∀ k, k < 9 →
      (gateAtEleven.run clockToggle0AtEight k).resetEdge (clockToggle0AtEight k) = false) ∧
    (∀ k, k < 8 → 0 < k →
      ¬ ((gateAtEleven.run clockToggle0AtEight k).clockEdge (clockToggle0AtEight k) = true ∧
        (gateAtEleven.run clockToggle0AtEight (k + 1)).curstep % 4 = 0)) ∧
    ((gateAtEleven.run clockToggle0AtEight 8).clockEdge (clockToggle0AtEight 8) = true ∧
      (gateAtEleven.run clockToggle0AtEight (8 + 1)).curstep % 4 = 0) ∧
    (gateAtEleven.run clockToggle0AtEight (8 + 1)).outputs.get 3 = 10 := by
  decide!

/-- C5, amended. In Gate mode, if channel `i` fires in tick `t0` and `tb` is the first
later tick in which a clock edge moves the phase onto a multiple of 4, with no reset edge
in between, then output `i` is 10.0 after every tick from `t0` up to, not including, `tb`.
In tick `tb` the flag `gateOn` is cleared before the loop, and output `i` after it is 10.0
if the pulse generator of channel `i` still reports active or a channel of index at most
`i` fires in that tick, and 0.0 otherwise. -/
theorem C5_gate_until_boundary (s : Fuse) (inp : Nat → Inputs) (i : Fin 4) (t0 tb : Nat)
    (hmode : s.gateMode = GateMode.GATE)
    (hfire : (s.run inp t0).fires (inp t0) i = true)
    (_hlt : t0 < tb)
    (hnoreset : ∀ k, t0 < k → k < tb → (s.run inp k).resetEdge (inp k) = false)
    (hnobound : ∀ k, t0 < k → k < tb →
      ¬ ((s.run inp k).clockEdge (inp k) = true ∧ (s.run inp (k + 1)).curstep % 4 = 0))
    (hbound : (s.run inp tb).clockEdge (inp tb) = true ∧
      (s.run inp (tb + 1)).curstep % 4 = 0) :
    (∀ k, t0 ≤ k → k < tb → (s.run inp (k + 1)).outputs.get i = 10) ∧
    (((s.run inp tb).pulseActive (inp tb) i = true ∨
        ∃ j, j ≤ i ∧ (s.run inp tb).fires (inp tb) j = true) →
      (s.run inp (tb + 1)).outputs.get i = 10) ∧
    (¬ ((s.run inp tb).pulseActive (inp tb) i = true ∨
        ∃ j, j ≤ i ∧ (s.run inp tb).fires (inp tb) j = true) →
      (s.run inp (tb + 1)).outputs.get i = 0) := by
  have hgate : (s.run inp tb).gateAt (inp tb) i = true ↔
      ∃ j, j ≤ i ∧ (s.run inp tb).fires (inp tb) j = true := by
    rw [Fuse.gateAt_iff, Fuse.enterLoop_gateOn_boundary _ _ hbound, Fuse.run_gateMode]
    simp [hmode]
  refine ⟨fun k h1 h2 => ?_, fun h => ?_, fun h => ?_⟩
  · rw [Fuse.run_succ, Fuse.step_outputs_get, if_pos]
    left
    rw [Fuse.gateAt_iff, Fuse.run_gateMode]
    rcases Nat.eq_or_lt_of_le h1 with heq | hgt
    · subst heq
      exact Or.inr ⟨hmode, i, le_refl i, hfire⟩
    · left
      obtain ⟨d, rfl⟩ : ∃ d, k = t0 + 1 + d := ⟨k - (t0 + 1), by omega⟩
      have hg := Fuse.gateOn_held s inp i t0 hmode hfire d
        (fun j h3 h4 => hnoreset j h3 (by omega)) (fun j h3 h4 => hnobound j h3 (by omega))
      exact Fuse.enterLoop_gateOn_keep _ _ hg (hnoreset _ hgt h2) (hnobound _ hgt h2)
  · rw [Fuse.run_succ, Fuse.step_outputs_get, if_pos]
    rcases h with h | h
    · exact Or.inr h
    · exact Or.inl (hgate.2 h)
  · rw [Fuse.run_succ, Fuse.step_outputs_get, if_neg]
    rintro (h1 | h1)
    · exact h (Or.inr (hgate.1 h1))
    · exact h (Or.inl h1)

/-- C5, witness: the run of the counterexample, where channel 0 fires at the boundary. -/
theorem C5_gate_until_boundary_witness :
    (∀ k, 0 ≤ k → k < 8 → (gateAtEleven.run clockToggle0AtEight (k + 1)).outputs.get 3 = 10) ∧
    (((gateAtEleven.run clockToggle0AtEight 8).pulseActive (clockToggle0AtEight 8) 3 = true ∨
        ∃ j, j ≤ (3 : Fin 4) ∧
          (gateAtEleven.run clockToggle0AtEight 8).fires (clockToggle0AtEight 8) j = true) →
      (gateAtEleven.run clockToggle0AtEight (8 + 1)).outputs.get 3 = 10) ∧
    (¬ ((gateAtEleven.run clockToggle0AtEight 8).pulseActive (clockToggle0AtEight 8) 3 = true ∨
        ∃ j, j ≤ (3 : Fin 4) ∧
          (gateAtEleven.run clockToggle0AtEight 8).fires (clockToggle0AtEight 8) j = true) →
      (gateAtEleven.run clockToggle0AtEight (8 + 1)).outputs.get 3 = 0) :=
  C5_gate_until_boundary gateAtEleven clockToggle0AtEight 3 0 8 (by decide!) (by decide!)
    (by decide)
    (fun k h1 h2 =>
      (by decide! : ∀ k, k < 8 → 0 < k →
        (gateAtEleven.run clockToggle0AtEight k).resetEdge (clockToggle0AtEight k) = false)
        k h2 h1)
    (fun k h1 h2 =>
      (by decide! : ∀ k, k < 8 → 0 < k →
        ¬ ((gateAtEleven.run clockToggle0AtEight k).clockEdge (clockToggle0AtEight k) = true ∧
          (gateAtEleven.run clockToggle0AtEight (k + 1)).curstep % 4 = 0)) k h2 h1)
    (by decide!)

/-- C6. In Trigger mode, if channel `i` fires in tick `t0`, then after every later tick
`t0 + m` up to which at least 1 ms of sample periods has elapsed since the firing (the
periods of the ticks `t0, ..., t0 + m - 1`) and in which the channel has not fired again,
output `i` is 0.0, whatever the clock does in between and whatever `gateOn` held before
the firing tick. -/
theorem C6_trigger_pulse_expires (s : Fuse) (inp : Nat → Inputs) (i : Fin 4) (t0 m : Nat)
    (hmode : s.gateMode = GateMode.TRIGGER)
    (hrate : ∀ k, 0 < (inp k).sampleRate)
    (hfire : (s.run inp t0).fires (inp t0) i = true)
    (hnofire : ∀ k, t0 < k → k ≤ t0 + m → (s.run inp k).fires (inp k) i = false)
    (helapsed : 1 / 1000 ≤ elapsed inp t0 m) :
    (s.run inp (t0 + m + 1)).outputs.get i = 0 := by
  cases m with
  | zero =>
    exfalso
    simp only [elapsed] at helapsed
    norm_num at helapsed
  | succ m =>
    have hk : s.run inp (t0 + (m + 1) + 1) = (s.run inp (t0 + m + 1)).step (inp (t0 + (m + 1))) :=
      rfl
    have hrem := Fuse.remaining_after_fire s inp i t0 hrate hfire (m + 1) hnofire
    have hmono := elapsed_mono inp t0 (m + 1) hrate
    have hgate : (s.run inp (t0 + m + 1)).gateAt (inp (t0 + (m + 1))) i = false := by
      rw [Bool.eq_false_iff]
      intro hc
      rcases (Fuse.gateAt_iff _ _ _).1 hc with h | ⟨h, _⟩
      · rw [Fuse.enterLoop_gateOn_of_false _ _
          (Fuse.gateOn_false_after_fire s inp i t0 hmode hfire m)] at h
        exact Bool.false_ne_true h
      · rw [Fuse.run_gateMode, hmode] at h
        exact GateMode.noConfusion h
    have hpulse : (s.run inp (t0 + m + 1)).pulseActive (inp (t0 + (m + 1))) i = false := by
      rw [Fuse.pulseActive_eq_remaining, ← hk, hrem, max_eq_left (by linarith)]
      simp
    rw [hk, Fuse.step_outputs_get, hgate, hpulse]
    simp

/-- C6, witness: at 1000 Hz channel 1 fires in tick 0 with `gateOn` left set beforehand;
its output is 0.0 after tick 1. -/
theorem C6_trigger_pulse_expires_witness :
    (triggerAtThree.run clockFromHigh 0).fires (clockFromHigh 0) 1 = true ∧
    triggerAtThree.gateOn = true ∧
    (triggerAtThree.run clockFromHigh (0 + 1 + 1)).outputs.get 1 = 0 :=
  ⟨by decide!, by decide!,
    C6_trigger_pulse_expires triggerAtThree clockFromHigh 1 0 1 (by decide!)
      (by intro k; unfold clockFromHigh; split_ifs <;> decide!)
      (by decide!)
      (by intro k h1 h2; have hk : k = 1 := by omega
          subst hk; decide!)
      (by decide!)⟩

/-- C7, counterexample. The state right after a reset edge has the phase counter at 16.
From it, a run of 32 ticks with no reset edge and exactly 16 detected clock edges ends with
the phase counter at 15, not at the value 16 it had before the first edge; and the first
of these edges moves the counter from 16 to 0, which is not an advance by one. -/
theorem C7_counterexample :
    ((fresh.step (resetThenClock 0)).curstep = 16 ∧
      (∀ k, k < 32 →
        ((fresh.step (resetThenClock 0)).run clockFromHigh k).resetEdge (clockFromHigh k)
          = false) ∧
      (fresh.step (resetThenClock 0)).clockEdges clockFromHigh 32 = 16 ∧
      ((fresh.step (resetThenClock 0)).run clockFromHigh 32).curstep = 15) ∧
    ((fresh.step (resetThenClock 0)).clockEdge (clockFromHigh 0) = true ∧
      ((fresh.step (resetThenClock 0)).run clockFromHigh 1).curstep = 0) := by
  decide!

/-- C7, amended. For every state whose phase counter is at most 16 (the constructed state
and every state reached from it) and every input sequence with no reset edge: a tick
without a detected clock edge leaves the phase counter unchanged; a detected clock edge
advances a phase in 0..15 by one, wrapping from 15 to 0, and moves the value 16 left by a
reset edge to 0. Starting from a phase in 0..15, after exactly 16 detected clock edges the
phase equals its starting value; starting from the value 16, after exactly 16 detected
clock edges the phase is 15. -/
theorem C7_phase_cycle (s : Fuse) (inp : Nat → Inputs) (n : Nat)
    (hphase : s.curstep ≤ maxsteps)
    (hnoreset : ∀ k, k < n → (s.run inp k).resetEdge (inp k) = false) :
    (∀ k, k < n → (s.run inp (k + 1)).curstep =
      if (s.run inp k).clockEdge (inp k) = true then
        (if (s.run inp k).curstep = maxsteps then 0 else ((s.run inp k).curstep + 1) % 16)
      else (s.run inp k).curstep) ∧
    (s.curstep < maxsteps → s.clockEdges inp n = 16 → (s.run inp n).curstep = s.curstep) ∧
    (s.curstep = maxsteps → s.clockEdges inp n = 16 → (s.run inp n).curstep = 15) := by
  refine ⟨fun k hk => ?_, fun h he => ?_, fun h he => ?_⟩
  · have hle := (Fuse.curstep_run s inp k hphase (fun j hj => hnoreset j (by omega))).1
    rw [Fuse.run_succ, Fuse.step_curstep_eq, hnoreset k hk]
    simp only [Bool.false_eq_true, if_false]
    by_cases hc : (s.run inp k).clockEdge (inp k) = true
    · rw [if_pos hc, if_pos hc]
      rcases Nat.lt_or_eq_of_le hle with hlt | heq
      · rw [nextPhase_of_lt _ hlt, if_neg (Nat.ne_of_lt hlt)]
      · rw [heq, nextPhase_maxsteps, if_pos rfl]
    · rw [if_neg hc, if_neg hc]
  · rw [(Fuse.curstep_run s inp n hphase hnoreset).2.1 h, he]
    unfold maxsteps at h
    omega
  · rw [(Fuse.curstep_run s inp n hphase hnoreset).2.2 h, he]
    rfl

/-- C7, witness: the run of the counterexample, from the state right after a reset edge. -/
theorem C7_phase_cycle_witness :
    (fresh.step (resetThenClock 0)).curstep = maxsteps ∧
    (fresh.step (resetThenClock 0)).clockEdges clockFromHigh 32 = 16 ∧
    ((fresh.step (resetThenClock 0)).run clockFromHigh 32).curstep = 15 :=
  ⟨by decide!, by decide!,
    (C7_phase_cycle (fresh.step (resetThenClock 0)) clockFromHigh 32 (by decide!)
      (by decide!)).2.2 (by decide!) (by decide!)⟩

/-- C8, the code at a failing input. The constructor leaves `armed[1]` unassigned; when the
memory holds `true` there, then with the arm input of channel 1 unconnected and its toggle
never pressed, `armed[1]` is true after the first tick and channel 1 fires on the fourth
clock edge (tick 6, phase 4). -/
theorem C8_unassigned_armed_flag :
    (∀ k, ((clockFromHigh k).arm.get 1).active = false ∧ (clockFromHigh k).switch.get 1 ≤ 0) ∧
    staleArmed = Fuse.new 1 2 ⟨false, true, false, false⟩ false ∧
    (staleArmed.run clockFromHigh 1).armed.get 1 = true ∧
    (staleArmed.run clockFromHigh 6).fires (clockFromHigh 6) 1 = true := by
  refine ⟨fun k => ?_, rfl, by decide!, by decide!⟩
  unfold clockFromHigh
  split_ifs <;> decide!

/-- C9, counterexample. In Gate mode with the phase at 3 and channel 1 armed, a clock edge
makes channel 1 fire: `gateOn` is true after the tick, the pulse of channel 0 is idle, and
output 0, written before channel 1 fired, is 0.0. -/
theorem C9_counterexample :
    (gateAtThree.step clockOnly).gateOn = true ∧
    (gateAtThree.step clockOnly).outputs.get 0 = 0 := by
  decide!

/-- C9, amended. After a tick, output `i` is 10.0 if `gateOn` as read in the loop iteration
of channel `i` is true or the pulse generator of channel `i` reported active in the tick,
and 0.0 otherwise; `gateOn` as read there is true exactly when it is true after the reset
and clock blocks of the tick, or the mode is Gate and a channel of index at most `i` fires
in the tick. -/
theorem C9_output_level (s : Fuse) (inp : Inputs) (i : Fin 4) :
    ((s.step inp).outputs.get i =
      if s.gateAt inp i = true ∨ s.pulseActive inp i = true then 10 else 0) ∧
    (s.gateAt inp i = true ↔
      (s.enterLoop inp).gateOn = true ∨
        (s.gateMode = GateMode.GATE ∧ ∃ j, j ≤ i ∧ s.fires inp j = true)) :=
  ⟨Fuse.step_outputs_get s inp i, Fuse.gateAt_iff s inp i⟩

/-- C10. In Gate mode, if some channel `i` fires in a tick, then `gateOn` is true after
that tick, and after a next tick that detects neither a reset edge nor a clock edge all
four outputs are 10.0. -/
theorem C10_gate_flag_shared (s : Fuse) (inp inp2 : Inputs) (i : Fin 4)
    (hmode : s.gateMode = GateMode.GATE) (hfire : s.fires inp i = true) :
    (s.step inp).gateOn = true ∧
    ((s.step inp).resetEdge inp2 = false → (s.step inp).clockEdge inp2 = false →
      ∀ j : Fin 4, ((s.step inp).step inp2).outputs.get j = 10) := by
  have hg : (s.step inp).gateOn = true :=
    (Fuse.step_gateOn_iff s inp).2 (Or.inr ⟨hmode, i, hfire⟩)
  refine ⟨hg, fun hr hc j => ?_⟩
  rw [Fuse.step_outputs_get, if_pos]
  left
  rw [Fuse.gateAt_iff, Fuse.enterLoop_gateOn, hr, hc, hg]
  simp

/-- C10, witness: channel 1 fires in Gate mode and the next tick is idle. -/
theorem C10_gate_flag_shared_witness :
    (gateAtThree.step clockOnly).gateOn = true ∧
    ((gateAtThree.step clockOnly).resetEdge idle = false →
      (gateAtThree.step clockOnly).clockEdge idle = false →
      ∀ j : Fin 4, ((gateAtThree.step clockOnly).step idle).outputs.get j = 10) :=
  C10_gate_flag_shared gateAtThree clockOnly idle 1 (by decide!) (by decide!)

end Southpole
